import Mathlib

/-!
Shallow embedding of the attribute value resolver and assigner of
src/shaderUtils.py (functions updateShader, handleValue, createShader,
createOrUpdateShader), together with proofs of the specification claims
about them.

Modelling conventions:
- Python numbers are rationals; Python tuples and lists are `PyVal.tup`
  and `PyVal.lst` over lists of values.
- The process-wide random source (random.uniform) is an explicit stream
  `s : Nat -> Rat` of draws in [0,1] together with a cursor `k`; each call
  to random() consumes `s k` and advances the cursor.
- Host scene-graph calls (maya.cmds) are a `Host` record of query
  functions plus a trace of `HostEvent`s recording every write the code
  issues; Python exceptions are an explicit `Option PyErr` / `Except`.
- The assignment dict is an association list with unique keys (Python
  dict keys are unique); `dict.get(key, default)` is `dictGet`.
-/

/-- Python exceptions that the embedded code can raise. -/
inductive PyErr where
  | indexError
  | typeError
  | nameError
deriving DecidableEq

/-- Python values occurring in attribute value specifications. -/
inductive PyVal where
  | num (q : ℚ)
  | str (t : String)
  | pynone
  | tup (es : List PyVal)
  | lst (es : List PyVal)

/-- The stream of draws of the shared random source; each draw lies in [0,1]. -/
abbrev RSource := Nat → ℚ

/-- random.uniform(a, b) = a + (b - a) * random(), with r the draw of random(). -/
def uniform (a b r : ℚ) : ℚ := a + (b - a) * r

/-- uniform(inValue[0], inValue[1]) on the element list of a tuple or list:
IndexError when fewer than two elements, TypeError when the first two are
not numbers (the subtraction b - a raises before random() is consumed). -/
def rangeDraw (s : RSource) (k : Nat) (es : List PyVal) : Except PyErr PyVal × Nat :=
  match es with
  | a :: b :: _ =>
    match a, b with
    | .num x, .num y => (.ok (.num (uniform x y (s k))), k + 1)
    | _, _ => (.error .typeError, k)
  | _ => (.error .indexError, k)

/-- handleValue (src/shaderUtils.py lines 98-114): if type(inValue) in
[tuple, list], return uniform(inValue[0], inValue[1]); otherwise return
inValue unchanged. -/
def handleValue (s : RSource) (k : Nat) (inValue : PyVal) : Except PyErr PyVal × Nat :=
  match inValue with
  | .tup es => rangeDraw s k es
  | .lst es => rangeDraw s k es
  | v => (.ok v, k)

/-- Python subscript v[i] for the shapes that can occur here: tuples and
lists index their elements, strings index to one-character strings,
anything else is not subscriptable (TypeError). -/
def pyIndex (v : PyVal) (i : Nat) : Except PyErr PyVal :=
  match v with
  | .tup es => match es.get? i with
               | some e => .ok e
               | none => .error .indexError
  | .lst es => match es.get? i with
               | some e => .ok e
               | none => .error .indexError
  | .str t => match t.toList.get? i with
              | some c => .ok (.str (String.singleton c))
              | none => .error .indexError
  | _ => .error .typeError

/-- One host scene-graph command issued by the embedded code. -/
inductive HostEvent where
  | setScalar (nodeAttr : String) (value : PyVal)
  | setVector (nodeAttr : String) (v1 v2 v3 : PyVal)
  | warn (msg : String)
  | createNode (nodeType name : String)
  | createSet (name : String)
  | connectAttr (src dst : String)

/-- The host scene graph: query primitives the embedded functions call.
Node creation returns the actual name the host chose. -/
structure Host where
  objExists : String → Bool
  getAttrType : String → String
  shadingNode : String → String → String
  sets : String → String

/-- Result of one stateful step: trace of host events, the exception that
escaped (if any), and the advanced random-source cursor. -/
abbrev StepResult := List HostEvent × Option PyErr × Nat

/-- Python dict.get(key, default) over the association-list model of the
dict (keys unique by construction of a Python dict). -/
def dictGet (d : List (String × PyVal)) (key : String) (dflt : PyVal) : PyVal :=
  match d with
  | [] => dflt
  | p :: rest => if p.1 = key then p.2 else dictGet rest key dflt

/-- The float3 branch of updateShader (src/shaderUtils.py lines 85-88):
mc.setAttr(node.attr, handleValue(values[0]), handleValue(values[1]),
handleValue(values[2])), with Python left-to-right argument evaluation:
each subscript, then each handleValue call, any raise aborting the rest. -/
def vec3Set (shaderNode inAttr : String) (values : PyVal) (s : RSource) (k : Nat) : StepResult :=
  match pyIndex values 0 with
  | .error e => ([], some e, k)
  | .ok c0 =>
    match handleValue s k c0 with
    | (.error e, k1) => ([], some e, k1)
    | (.ok v0, k1) =>
      match pyIndex values 1 with
      | .error e => ([], some e, k1)
      | .ok c1 =>
        match handleValue s k1 c1 with
        | (.error e, k2) => ([], some e, k2)
        | (.ok v1, k2) =>
          match pyIndex values 2 with
          | .error e => ([], some e, k2)
          | .ok c2 =>
            match handleValue s k2 c2 with
            | (.error e, k3) => ([], some e, k3)
            | (.ok v2, k3) =>
              ([.setVector (shaderNode ++ "." ++ inAttr) v0 v1 v2], none, k3)

/-- The body of the updateShader loop for one attribute name inAttr
(src/shaderUtils.py lines 81-95): query the attribute type, dispatch on
"float3" / "float" / other, fetching the value spec with
shaderAttrValues.get(inAttr, default). -/
def processAttr (host : Host) (shaderNode : String) (d : List (String × PyVal))
    (inAttr : String) (s : RSource) (k : Nat) : StepResult :=
  let attrType := host.getAttrType (shaderNode ++ "." ++ inAttr)
  if attrType = "float3" then
    let values := dictGet d inAttr (.tup [.num 0, .num 0, .num 0])
    vec3Set shaderNode inAttr values s k
  else if attrType = "float" then
    let r := handleValue s k (dictGet d inAttr (.num 0))
    match r.1 with
    | .ok v => ([.setScalar (shaderNode ++ "." ++ inAttr) v], none, r.2)
    | .error e => ([], some e, r.2)
  else
    ([.warn ("attr " ++ inAttr ++ " is of unimplemented type " ++ attrType ++ ", skipping")],
     none, k)

/-- The loop of updateShader over the key list of the dict; an exception
raised for one attribute aborts the remaining iterations (it propagates). -/
def updateShaderGo (host : Host) (shaderNode : String) (d : List (String × PyVal))
    (s : RSource) : List String → Nat → StepResult
  | [], k => ([], none, k)
  | inAttr :: rest, k =>
    let r := processAttr host shaderNode d inAttr s k
    match r.2.1 with
    | some e => (r.1, some e, r.2.2)
    | none =>
      let r2 := updateShaderGo host shaderNode d s rest r.2.2
      (r.1 ++ r2.1, r2.2.1, r2.2.2)

/-- updateShader (src/shaderUtils.py lines 67-95): walk the keys of
shaderAttrValues and set each value onto the corresponding attribute. -/
def updateShader (host : Host) (shaderNode : String) (shaderAttrValues : List (String × PyVal))
    (s : RSource) (k : Nat) : StepResult :=
  updateShaderGo host shaderNode shaderAttrValues s (shaderAttrValues.map Prod.fst) k

/-- createShader (src/shaderUtils.py lines 32-65): create the shading
node and its shading group, connect them, then updateShader; returns the
pair of created names. -/
def createShader (host : Host) (shaderName : String)
    (shaderAttrValues : List (String × PyVal)) (shaderType : String)
    (s : RSource) (k : Nat) : List HostEvent × Except PyErr (String × String) × Nat :=
  let shaderNode := host.shadingNode shaderType shaderName
  let sgName := host.sets (shaderNode ++ "SG")
  let pre : List HostEvent :=
    [.createNode shaderType shaderNode, .createSet sgName,
     .connectAttr (shaderNode ++ ".outColor") (sgName ++ ".surfaceShader")]
  let r := updateShader host shaderNode shaderAttrValues s k
  match r.2.1 with
  | some e => (pre ++ r.1, .error e, r.2.2)
  | none => (pre ++ r.1, .ok (shaderNode, sgName), r.2.2)

/-- createOrUpdateShader (src/shaderUtils.py lines 142-163): create when
the name does not exist, else update.  In the update branch the local
variable shaderNode is never bound, so the final
`return (shaderNode, shadingGroupNode)` raises UnboundLocalError (a
NameError) instead of returning. -/
def createOrUpdateShader (host : Host) (shaderName : String)
    (shaderAttrValues : List (String × PyVal)) (shaderType : String)
    (s : RSource) (k : Nat) : List HostEvent × Except PyErr (String × Option String) × Nat :=
  if host.objExists shaderName = false then
    let r := createShader host shaderName shaderAttrValues shaderType s k
    match r.2.1 with
    | .ok p => (r.1, .ok (p.1, some p.2), r.2.2)
    | .error e => (r.1, .error e, r.2.2)
  else
    let r := updateShader host shaderName shaderAttrValues s k
    match r.2.1 with
    | some e => (r.1, .error e, r.2.2)
    | none => (r.1, .error .nameError, r.2.2)

/-- processAttr with the value spec the dict lookup returns substituted in;
proof-side restatement used to reason entry by entry (not in the source). -/
def processEntry (host : Host) (shaderNode inAttr : String) (spec : PyVal)
    (s : RSource) (k : Nat) : StepResult :=
  let attrType := host.getAttrType (shaderNode ++ "." ++ inAttr)
  if attrType = "float3" then
    vec3Set shaderNode inAttr spec s k
  else if attrType = "float" then
    let r := handleValue s k spec
    match r.1 with
    | .ok v => ([.setScalar (shaderNode ++ "." ++ inAttr) v], none, r.2)
    | .error e => ([], some e, r.2)
  else
    ([.warn ("attr " ++ inAttr ++ " is of unimplemented type " ++ attrType ++ ", skipping")],
     none, k)

/-- The loop of updateShader re-expressed directly over the (key, value)
pairs; agrees with updateShaderGo when the dict keys are unique. -/
def entriesGo (host : Host) (shaderNode : String) (s : RSource) :
    List (String × PyVal) → Nat → StepResult
  | [], k => ([], none, k)
  | (a, spec) :: rest, k =>
    let r := processEntry host shaderNode a spec s k
    match r.2.1 with
    | some e => (r.1, some e, r.2.2)
    | none =>
      let r2 := entriesGo host shaderNode s rest r.2.2
      (r.1 ++ r2.1, r2.2.1, r2.2.2)

/-- type(inValue) in [tuple, list]: the test handleValue dispatches on. -/
def isRangeContainer : PyVal → Bool
  | .tup _ => true
  | .lst _ => true
  | _ => false

/-- The value-spec shapes the spec admits for a scalar attribute:
a number, or an ordered pair (low, high) of numbers. -/
def scalarSpecOk : PyVal → Bool
  | .num _ => true
  | .tup [.num _, .num _] => true
  | .lst [.num _, .num _] => true
  | _ => false

/-- A well-shaped vector3 value spec: a three-component tuple or list
whose components are each a number or a (low, high) pair. -/
def vecSpecOk : PyVal → Bool
  | .tup [a, b, c] => scalarSpecOk a && scalarSpecOk b && scalarSpecOk c
  | .lst [a, b, c] => scalarSpecOk a && scalarSpecOk b && scalarSpecOk c
  | _ => false

/-- The spec for the given attribute has the shape its host-declared type
expects, so processing it raises no exception. -/
def entrySafe (host : Host) (shaderNode : String) (p : String × PyVal) : Bool :=
  let t := host.getAttrType (shaderNode ++ "." ++ p.1)
  if t = "float3" then vecSpecOk p.2
  else if t = "float" then scalarSpecOk p.2
  else true

/-- The value is not a tuple or list, so handleValue passes it through
without consuming a random draw. -/
def notRange (v : PyVal) : Bool := !(isRangeContainer v)

/-- Processing this entry consumes no randomness (all resolved values are
literals, not range draws). -/
def entryDet (host : Host) (shaderNode : String) (p : String × PyVal) : Bool :=
  let t := host.getAttrType (shaderNode ++ "." ++ p.1)
  if t = "float3" then
    match p.2 with
    | .tup [a, b, c] => notRange a && notRange b && notRange c
    | .lst [a, b, c] => notRange a && notRange b && notRange c
    | _ => false
  else if t = "float" then notRange p.2
  else true

/-- Erase the written values from an event, keeping which attribute was
written (or which warning was emitted). -/
def eventShape : HostEvent → HostEvent
  | .setScalar na _ => .setScalar na (.num 0)
  | .setVector na _ _ _ => .setVector na (.num 0) (.num 0) (.num 0)
  | e => e

/-- The value-erased event that processing a well-shaped entry emits;
depends only on the entry, not on the random cursor. -/
def entryShape (host : Host) (shaderNode : String) (p : String × PyVal) : HostEvent :=
  let t := host.getAttrType (shaderNode ++ "." ++ p.1)
  if t = "float3" then .setVector (shaderNode ++ "." ++ p.1) (.num 0) (.num 0) (.num 0)
  else if t = "float" then .setScalar (shaderNode ++ "." ++ p.1) (.num 0)
  else .warn ("attr " ++ p.1 ++ " is of unimplemented type " ++ t ++ ", skipping")

/-- The full event a randomness-free, well-shaped entry emits. -/
def entryEvent (host : Host) (shaderNode : String) (p : String × PyVal) : HostEvent :=
  let t := host.getAttrType (shaderNode ++ "." ++ p.1)
  if t = "float3" then
    match p.2 with
    | .tup (a :: b :: c :: _) => .setVector (shaderNode ++ "." ++ p.1) a b c
    | .lst (a :: b :: c :: _) => .setVector (shaderNode ++ "." ++ p.1) a b c
    | _ => .warn ""
  else if t = "float" then .setScalar (shaderNode ++ "." ++ p.1) p.2
  else .warn ("attr " ++ p.1 ++ " is of unimplemented type " ++ t ++ ", skipping")

/-- The event is an attribute write on one of the given keys of the target
node, or a warning; never a node creation or connection. -/
def touchesOnlyKeys (shaderNode : String) (keys : List String) : HostEvent → Prop
  | .setScalar na _ => ∃ a ∈ keys, na = shaderNode ++ "." ++ a
  | .setVector na _ _ _ => ∃ a ∈ keys, na = shaderNode ++ "." ++ a
  | .warn _ => True
  | .createNode _ _ => False
  | .createSet _ => False
  | .connectAttr _ _ => False

-- Concrete hosts and random sources used by witnesses and counterexamples.
def hostF3 : Host := ⟨fun _ => true, fun _ => "float3", fun _ n => n, fun n => n⟩

def hostF : Host := ⟨fun _ => true, fun _ => "float", fun _ n => n, fun n => n⟩

def sHalf : RSource := fun _ => 1/2

/-- A host typing attribute a of node n as scalar, attribute b as an
unsupported type, and everything else as scalar. -/
def hostMix : Host :=
  ⟨fun _ => true, fun na => if na = "n.b" then "typeFoo" else "float", fun _ n => n, fun n => n⟩

/-- A random source whose first draw is 0 and all later draws are 1. -/
def sStep : RSource := fun i => if i = 0 then 0 else 1

/-- A draw of uniform lo hi stays inside [lo, hi] when the random draw
lies in [0, 1]. -/
lemma uniform_mem {lo hi r : ℚ} (hlh : lo ≤ hi) (hr0 : 0 ≤ r) (hr1 : r ≤ 1) :
    lo ≤ uniform lo hi r ∧ uniform lo hi r ≤ hi := by
  unfold uniform
  constructor
  · nlinarith
  · nlinarith

/-- With unique keys, dict.get on a present key returns its value, for any
default. -/
lemma dictGet_of_mem {d : List (String × PyVal)} {a : String} {v : PyVal}
    (hn : (d.map Prod.fst).Nodup) (hm : (a, v) ∈ d) (dflt : PyVal) :
    dictGet d a dflt = v := by
  induction d with
  | nil => cases hm
  | cons p rest ih =>
    obtain ⟨b, w⟩ := p
    simp only [List.map_cons, List.nodup_cons] at hn
    rcases List.mem_cons.mp hm with h | h
    · injection h with h1 h2
      subst h1
      subst h2
      simp [dictGet]
    · have hne : b ≠ a := by
        intro he
        exact hn.1 (he ▸ List.mem_map.mpr ⟨(a, v), h, rfl⟩)
      simp only [dictGet, if_neg hne]
      exact ih hn.2 h

/-- When every lookup of inAttr in the dict returns spec, the loop body is
the entry-level step. -/
lemma processAttr_entry (host : Host) (node : String) {d : List (String × PyVal)}
    {a : String} {spec : PyVal} (s : RSource) (k : Nat)
    (h : ∀ dflt, dictGet d a dflt = spec) :
    processAttr host node d a s k = processEntry host node a spec s k := by
  simp only [processAttr, processEntry, h]

/-- The loop result depends on the dict only through the lookups of the
keys it walks. -/
lemma updateShaderGo_congr (host : Host) (node : String)
    {d d' : List (String × PyVal)} (s : RSource) {ks : List String}
    (h : ∀ a ∈ ks, ∀ dflt, dictGet d a dflt = dictGet d' a dflt) :
    ∀ k, updateShaderGo host node d s ks k = updateShaderGo host node d' s ks k := by
  induction ks with
  | nil => intro k; rfl
  | cons a rest ih =>
    intro k
    have hpa : processAttr host node d a s k = processAttr host node d' a s k := by
      simp only [processAttr, h a (List.mem_cons_self a rest)]
    simp only [updateShaderGo, hpa]
    cases hres : (processAttr host node d' a s k).2.1 with
    | some e => rfl
    | none => rw [ih (fun b hb => h b (List.mem_cons_of_mem a hb))]

/-- With unique keys, walking the key list with get-lookups is the same as
walking the (key, value) pairs directly. -/
lemma updateShader_eq_entriesGo (host : Host) (node : String)
    {d : List (String × PyVal)} (s : RSource)
    (hn : (d.map Prod.fst).Nodup) :
    ∀ k, updateShader host node d s k = entriesGo host node s d k := by
  induction d with
  | nil => intro k; rfl
  | cons p rest ih =>
    obtain ⟨a, v⟩ := p
    simp only [List.map_cons, List.nodup_cons] at hn
    intro k
    have hget : ∀ dflt, dictGet ((a, v) :: rest) a dflt = v := fun dflt => by
      simp [dictGet]
    have hpa := processAttr_entry host node s k hget
    show updateShaderGo host node ((a, v) :: rest) s (a :: rest.map Prod.fst) k = _
    have ihgo : ∀ k1, updateShaderGo host node rest s (rest.map Prod.fst) k1
        = entriesGo host node s rest k1 := fun k1 => ih hn.2 k1
    have hcongr : ∀ k1, updateShaderGo host node ((a, v) :: rest) s (rest.map Prod.fst) k1
        = updateShaderGo host node rest s (rest.map Prod.fst) k1 := by
      apply updateShaderGo_congr
      intro b hb dflt
      have hne : a ≠ b := fun he => hn.1 (he ▸ hb)
      simp only [dictGet, if_neg hne]
    simp only [updateShaderGo, entriesGo, hpa]
    cases hres : (processEntry host node a v s k).2.1 with
    | some e => rfl
    | none => rw [hcongr, ihgo]

/-- Splitting the entry walk at an error-free prefix. -/
lemma entriesGo_append_ok (host : Host) (node : String) (s : RSource)
    (d1 d2 : List (String × PyVal)) :
    ∀ k, (entriesGo host node s d1 k).2.1 = none →
      entriesGo host node s (d1 ++ d2) k
        = ((entriesGo host node s d1 k).1
            ++ (entriesGo host node s d2 (entriesGo host node s d1 k).2.2).1,
           (entriesGo host node s d2 (entriesGo host node s d1 k).2.2).2.1,
           (entriesGo host node s d2 (entriesGo host node s d1 k).2.2).2.2) := by
  induction d1 with
  | nil => intro k _; simp [entriesGo]
  | cons p rest ih =>
    obtain ⟨a, v⟩ := p
    intro k h
    simp only [entriesGo] at h
    simp only [List.cons_append, entriesGo]
    cases hres : (processEntry host node a v s k).2.1 with
    | some e =>
      rw [hres] at h
      exact absurd h (by simp)
    | none =>
      rw [hres] at h
      simp only at h
      dsimp only
      simp only [List.append_eq]
      rw [ih _ h]
      simp [List.append_assoc]

/-- Splitting updateShader at an error-free prefix of the assignment dict. -/
lemma updateShader_split (host : Host) (node : String)
    (d1 d2 : List (String × PyVal)) (s : RSource) (k : Nat)
    (hn : ((d1 ++ d2).map Prod.fst).Nodup)
    (hpre : (updateShader host node d1 s k).2.1 = none) :
    updateShader host node (d1 ++ d2) s k
      = ((updateShader host node d1 s k).1
          ++ (updateShader host node d2 s (updateShader host node d1 s k).2.2).1,
         (updateShader host node d2 s (updateShader host node d1 s k).2.2).2.1,
         (updateShader host node d2 s (updateShader host node d1 s k).2.2).2.2) := by
  have hmap : (d1 ++ d2).map Prod.fst = d1.map Prod.fst ++ d2.map Prod.fst :=
    List.map_append Prod.fst d1 d2
  have hn1 : (d1.map Prod.fst).Nodup := (hmap ▸ hn).of_append_left
  have hn2 : (d2.map Prod.fst).Nodup := (hmap ▸ hn).of_append_right
  simp only [updateShader_eq_entriesGo host node s hn1] at hpre
  simp only [updateShader_eq_entriesGo host node s hn,
    updateShader_eq_entriesGo host node s hn1, updateShader_eq_entriesGo host node s hn2]
  exact entriesGo_append_ok host node s d1 d2 k hpre

/-- Unfolding updateShader on the first entry of a unique-key dict. -/
lemma updateShader_cons (host : Host) (node : String)
    (a : String) (spec : PyVal) (d2 : List (String × PyVal)) (s : RSource) (k : Nat)
    (hn : (((a, spec) :: d2).map Prod.fst).Nodup) :
    updateShader host node ((a, spec) :: d2) s k
      = (match (processEntry host node a spec s k).2.1 with
         | some e => ((processEntry host node a spec s k).1, some e,
                      (processEntry host node a spec s k).2.2)
         | none =>
           ((processEntry host node a spec s k).1
             ++ (updateShader host node d2 s (processEntry host node a spec s k).2.2).1,
            (updateShader host node d2 s (processEntry host node a spec s k).2.2).2.1,
            (updateShader host node d2 s (processEntry host node a spec s k).2.2).2.2)) := by
  have hn2 : (d2.map Prod.fst).Nodup := by
    simp only [List.map_cons, List.nodup_cons] at hn
    exact hn.2
  simp only [updateShader_eq_entriesGo host node s hn,
    updateShader_eq_entriesGo host node s hn2, entriesGo]

/-- An attribute of a type other than float and float3 only warns: no
write, no exception, no random draw. -/
lemma processEntry_unsupported (host : Host) (node a : String) (spec : PyVal)
    (s : RSource) (k : Nat)
    (h3 : host.getAttrType (node ++ "." ++ a) ≠ "float3")
    (h1 : host.getAttrType (node ++ "." ++ a) ≠ "float") :
    processEntry host node a spec s k
      = ([.warn ("attr " ++ a ++ " is of unimplemented type "
            ++ host.getAttrType (node ++ "." ++ a) ++ ", skipping")], none, k) := by
  simp only [processEntry, if_neg h3, if_neg h1]

/-- A float-typed attribute writes exactly the resolved value through the
scalar setter. -/
lemma processEntry_float (host : Host) (node a : String) (spec : PyVal)
    (s : RSource) (k : Nat) (v : PyVal) (k1 : Nat)
    (ht : host.getAttrType (node ++ "." ++ a) = "float")
    (hv : handleValue s k spec = (.ok v, k1)) :
    processEntry host node a spec s k
      = ([.setScalar (node ++ "." ++ a) v], none, k1) := by
  simp only [processEntry, ht, hv]
  simp

/-- handleValue succeeds on every spec shape admitted for a scalar slot. -/
lemma handleValue_ok (s : RSource) (k : Nat) (v : PyVal) (h : scalarSpecOk v = true) :
    ∃ w k1, handleValue s k v = (Except.ok w, k1) := by
  unfold scalarSpecOk at h
  split at h
  · next q => exact ⟨.num q, k, rfl⟩
  · next x y => exact ⟨.num (uniform x y (s k)), k + 1, rfl⟩
  · next x y => exact ⟨.num (uniform x y (s k)), k + 1, rfl⟩
  · exact absurd h (by simp)

/-- handleValue passes every non-tuple, non-list value through unchanged,
consuming no randomness. -/
lemma handleValue_passthrough (s : RSource) (k : Nat) (v : PyVal)
    (h : isRangeContainer v = false) :
    handleValue s k v = (Except.ok v, k) := by
  cases v <;> simp_all [isRangeContainer, handleValue]

/-- A scalar-slot spec that is not a range container is a plain number. -/
lemma scalarSpec_det_num (v : PyVal) (h : scalarSpecOk v = true)
    (hd : notRange v = true) : ∃ q, v = PyVal.num q := by
  cases v <;> simp_all [scalarSpecOk, notRange, isRangeContainer]

/-- The float3 write succeeds whenever the three indexed components are
admissible scalar-slot specs. -/
lemma vec3Set_ok (node a : String) (values ca cb cc : PyVal) (s : RSource) (k : Nat)
    (h0 : pyIndex values 0 = .ok ca) (h1 : pyIndex values 1 = .ok cb)
    (h2 : pyIndex values 2 = .ok cc)
    (ha : scalarSpecOk ca = true) (hb : scalarSpecOk cb = true)
    (hc : scalarSpecOk cc = true) :
    ∃ v0 v1 v2 k3, vec3Set node a values s k
      = ([.setVector (node ++ "." ++ a) v0 v1 v2], none, k3) := by
  obtain ⟨v0, k1, e0⟩ := handleValue_ok s k ca ha
  obtain ⟨v1, k2, e1⟩ := handleValue_ok s k1 cb hb
  obtain ⟨v2, k3, e2⟩ := handleValue_ok s k2 cc hc
  refine ⟨v0, v1, v2, k3, ?_⟩
  unfold vec3Set
  simp only [h0, e0, h1, e1, h2, e2]

/-- A well-shaped entry is processed without exception, emitting exactly
one event whose value-erased shape depends only on the entry. -/
lemma processEntry_safe (host : Host) (node a : String) (spec : PyVal)
    (s : RSource) (k : Nat) (hs : entrySafe host node (a, spec) = true) :
    ∃ ev k1, processEntry host node a spec s k = ([ev], none, k1)
      ∧ eventShape ev = entryShape host node (a, spec) := by
  unfold entrySafe at hs
  by_cases h3 : host.getAttrType (node ++ "." ++ a) = "float3"
  · simp only [h3, if_pos] at hs
    unfold processEntry entryShape
    simp only [h3, if_pos]
    unfold vecSpecOk at hs
    split at hs
    · next ca cb cc =>
      obtain ⟨⟨ha, hb⟩, hc⟩ := by simpa [Bool.and_eq_true] using hs
      obtain ⟨v0, v1, v2, k3, he⟩ :=
        vec3Set_ok node a (.tup [ca, cb, cc]) ca cb cc s k rfl rfl rfl ha hb hc
      exact ⟨_, k3, he, rfl⟩
    · next ca cb cc =>
      obtain ⟨⟨ha, hb⟩, hc⟩ := by simpa [Bool.and_eq_true] using hs
      obtain ⟨v0, v1, v2, k3, he⟩ :=
        vec3Set_ok node a (.lst [ca, cb, cc]) ca cb cc s k rfl rfl rfl ha hb hc
      exact ⟨_, k3, he, rfl⟩
    · exact absurd hs (by simp)
  · by_cases h1 : host.getAttrType (node ++ "." ++ a) = "float"
    · simp only [h3, h1, if_false, if_true] at hs
      rw [if_neg (by decide)] at hs
      obtain ⟨w, k1, hw⟩ := handleValue_ok s k spec hs
      refine ⟨.setScalar (node ++ "." ++ a) w, k1, ?_, ?_⟩
      · exact processEntry_float host node a spec s k w k1 h1 hw
      · simp [eventShape, entryShape, h1, h3]
    · refine ⟨.warn ("attr " ++ a ++ " is of unimplemented type "
          ++ host.getAttrType (node ++ "." ++ a) ++ ", skipping"), k, ?_, ?_⟩
      · exact processEntry_unsupported host node a spec s k h3 h1
      · unfold entryShape eventShape
        simp only [h1, h3]
        simp

/-- A well-shaped entry that consumes no randomness is processed to one
fully determined event, with the random cursor unchanged. -/
lemma processEntry_det (host : Host) (node a : String) (spec : PyVal)
    (s : RSource) (k : Nat)
    (hs : entrySafe host node (a, spec) = true)
    (hd : entryDet host node (a, spec) = true) :
    processEntry host node a spec s k = ([entryEvent host node (a, spec)], none, k) := by
  unfold entrySafe at hs
  unfold entryDet at hd
  by_cases h3 : host.getAttrType (node ++ "." ++ a) = "float3"
  · simp only [h3, if_pos] at hs hd
    unfold processEntry entryEvent
    simp only [h3, if_pos]
    unfold vecSpecOk at hs
    split at hs
    · next ca cb cc =>
      obtain ⟨⟨ha, hb⟩, hc⟩ := by simpa [Bool.and_eq_true] using hs
      obtain ⟨⟨da, db⟩, dc⟩ : (notRange ca = true ∧ notRange cb = true) ∧ notRange cc = true := by
        simpa [Bool.and_eq_true] using hd
      obtain ⟨qa, rfl⟩ := scalarSpec_det_num ca ha da
      obtain ⟨qb, rfl⟩ := scalarSpec_det_num cb hb db
      obtain ⟨qc, rfl⟩ := scalarSpec_det_num cc hc dc
      rfl
    · next ca cb cc =>
      obtain ⟨⟨ha, hb⟩, hc⟩ := by simpa [Bool.and_eq_true] using hs
      obtain ⟨⟨da, db⟩, dc⟩ : (notRange ca = true ∧ notRange cb = true) ∧ notRange cc = true := by
        simpa [Bool.and_eq_true] using hd
      obtain ⟨qa, rfl⟩ := scalarSpec_det_num ca ha da
      obtain ⟨qb, rfl⟩ := scalarSpec_det_num cb hb db
      obtain ⟨qc, rfl⟩ := scalarSpec_det_num cc hc dc
      rfl
    · exact absurd hs (by simp)
  · by_cases h1 : host.getAttrType (node ++ "." ++ a) = "float"
    · simp only [h3, h1, if_false, if_true] at hs hd
      rw [if_neg (by decide)] at hs
      rw [if_neg (by decide)] at hd
      obtain ⟨q, rfl⟩ := scalarSpec_det_num spec hs hd
      have := processEntry_float host node a (.num q) s k (.num q) k h1 rfl
      rw [this]
      unfold entryEvent
      simp [h1, h3]
    · rw [processEntry_unsupported host node a spec s k h3 h1]
      unfold entryEvent
      simp [h1, h3]

/-- Processing a dict of well-shaped entries raises no exception, and its
trace of value-erased events is exactly the per-entry shapes, in order. -/
lemma entriesGo_safe_shape (host : Host) (node : String) (s : RSource) :
    ∀ (d : List (String × PyVal)) (k : Nat),
      (∀ p ∈ d, entrySafe host node p = true) →
      (entriesGo host node s d k).2.1 = none
      ∧ (entriesGo host node s d k).1.map eventShape = d.map (entryShape host node) := by
  intro d
  induction d with
  | nil => intro k _; exact ⟨rfl, rfl⟩
  | cons p rest ih =>
    intro k h
    obtain ⟨a, v⟩ := p
    obtain ⟨ev, k1, he, hsh⟩ :=
      processEntry_safe host node a v s k (h _ (List.mem_cons_self _ _))
    obtain ⟨ih1, ih2⟩ := ih k1 (fun q hq => h q (List.mem_cons_of_mem _ hq))
    simp only [entriesGo, he]
    exact ⟨ih1, by simp [ih2, hsh]⟩

/-- Processing a dict of well-shaped, randomness-free entries produces
exactly the per-entry events, in order, with no exception. -/
lemma entriesGo_det_trace (host : Host) (node : String) (s : RSource) :
    ∀ (d : List (String × PyVal)) (k : Nat),
      (∀ p ∈ d, entrySafe host node p = true) →
      (∀ p ∈ d, entryDet host node p = true) →
      (entriesGo host node s d k).1 = d.map (entryEvent host node)
      ∧ (entriesGo host node s d k).2.1 = none := by
  intro d
  induction d with
  | nil => intro k _ _; exact ⟨rfl, rfl⟩
  | cons p rest ih =>
    intro k hsafe hdet
    obtain ⟨a, v⟩ := p
    have he := processEntry_det host node a v s k
      (hsafe _ (List.mem_cons_self _ _)) (hdet _ (List.mem_cons_self _ _))
    obtain ⟨ih1, ih2⟩ := ih k (fun q hq => hsafe q (List.mem_cons_of_mem _ hq))
      (fun q hq => hdet q (List.mem_cons_of_mem _ hq))
    simp only [entriesGo, he]
    exact ⟨by simp [ih1], ih2⟩

/-- Every event the float3 branch emits is a vector write on the processed
attribute. -/
lemma vec3Set_events (node a : String) (values : PyVal) (s : RSource) (k : Nat) :
    ∀ ev ∈ (vec3Set node a values s k).1,
      ∃ v0 v1 v2, ev = HostEvent.setVector (node ++ "." ++ a) v0 v1 v2 := by
  intro ev hev
  unfold vec3Set at hev
  split at hev
  · exact absurd hev (List.not_mem_nil _)
  · split at hev
    · exact absurd hev (List.not_mem_nil _)
    · split at hev
      · exact absurd hev (List.not_mem_nil _)
      · split at hev
        · exact absurd hev (List.not_mem_nil _)
        · split at hev
          · exact absurd hev (List.not_mem_nil _)
          · split at hev
            · exact absurd hev (List.not_mem_nil _)
            · exact ⟨_, _, _, List.mem_singleton.mp hev⟩

/-- Every event one loop-body step emits is a scalar write, a vector
write on the processed attribute, or a warning. -/
lemma processAttr_events (host : Host) (node : String) (d : List (String × PyVal))
    (a : String) (s : RSource) (k : Nat) :
    ∀ ev ∈ (processAttr host node d a s k).1,
      (∃ v, ev = HostEvent.setScalar (node ++ "." ++ a) v)
      ∨ (∃ v0 v1 v2, ev = HostEvent.setVector (node ++ "." ++ a) v0 v1 v2)
      ∨ (∃ m, ev = HostEvent.warn m) := by
  intro ev hev
  unfold processAttr at hev
  dsimp only at hev
  split at hev
  · exact Or.inr (Or.inl (vec3Set_events node a _ s k ev hev))
  · split at hev
    · split at hev
      · exact Or.inl ⟨_, List.mem_singleton.mp hev⟩
      · exact absurd hev (List.not_mem_nil _)
    · exact Or.inr (Or.inr ⟨_, List.mem_singleton.mp hev⟩)

/-- Enlarging the admitted key set preserves the event predicate. -/
lemma touchesOnlyKeys_mono {node : String} {ks ks' : List String}
    (hsub : ks ⊆ ks') (ev : HostEvent) :
    touchesOnlyKeys node ks ev → touchesOnlyKeys node ks' ev := by
  cases ev with
  | setScalar na v => rintro ⟨a, ha, rfl⟩; exact ⟨a, hsub ha, rfl⟩
  | setVector na v0 v1 v2 => rintro ⟨a, ha, rfl⟩; exact ⟨a, hsub ha, rfl⟩
  | warn m => exact fun h => h
  | createNode t n => exact fun h => h
  | createSet n => exact fun h => h
  | connectAttr x y => exact fun h => h

/-- Every event of the loop is an attribute write on one of the walked
keys, or a warning; never a creation or connection. -/
lemma updateShaderGo_touches (host : Host) (node : String) (d : List (String × PyVal))
    (s : RSource) :
    ∀ (ks : List String) (k : Nat), ∀ ev ∈ (updateShaderGo host node d s ks k).1,
      touchesOnlyKeys node ks ev := by
  intro ks
  induction ks with
  | nil => intro k ev hev; exact absurd hev (List.not_mem_nil _)
  | cons a rest ih =>
    intro k ev hev
    have hstep : ∀ ev ∈ (processAttr host node d a s k).1, touchesOnlyKeys node (a :: rest) ev := by
      intro ev2 hev2
      rcases processAttr_events host node d a s k ev2 hev2 with ⟨v, rfl⟩ | ⟨v0, v1, v2, rfl⟩ | ⟨m, rfl⟩
      · exact ⟨a, List.mem_cons_self _ _, rfl⟩
      · exact ⟨a, List.mem_cons_self _ _, rfl⟩
      · trivial
    simp only [updateShaderGo] at hev
    split at hev
    · exact hstep ev hev
    · rcases List.mem_append.mp hev with h | h
      · exact hstep ev h
      · exact touchesOnlyKeys_mono (List.subset_cons_self _ _) ev (ih _ ev h)

/-- C1 (counterexample): for a vector3 attribute whose value specification
is a single range pair (low, high), updateShader does not resolve three
components from that pair; indexing values[2] on the 2-tuple raises
IndexError before any write, so the claimed three in-range writes never
happen. -/
theorem vector3_single_range_pair_raises_indexError :
    updateShader hostF3 "sh" [("baseColor", .tup [.num 0, .num 1])] sHalf 0
      = ([], some PyErr.indexError, 0) := rfl

/-- C1 (amended): a vector3 spec must itself supply three components; when
each of the three components is the same range pair (lo, hi), the three
components are resolved independently via handleValue, three random draws
are consumed, and the three written values each lie in [lo, hi]. -/
theorem vector3_componentwise_range_within_bounds
    (host : Host) (node a : String) (lo hi : ℚ) (s : RSource) (k : Nat)
    (ht : host.getAttrType (node ++ "." ++ a) = "float3")
    (hlh : lo ≤ hi)
    (h00 : 0 ≤ s k) (h01 : s k ≤ 1)
    (h10 : 0 ≤ s (k+1)) (h11 : s (k+1) ≤ 1)
    (h20 : 0 ≤ s (k+2)) (h21 : s (k+2) ≤ 1) :
    ∃ x y z : ℚ,
      updateShader host node
        [(a, .tup [.tup [.num lo, .num hi], .tup [.num lo, .num hi], .tup [.num lo, .num hi]])]
        s k
      = ([.setVector (node ++ "." ++ a) (.num x) (.num y) (.num z)], none, k + 3)
      ∧ lo ≤ x ∧ x ≤ hi ∧ lo ≤ y ∧ y ≤ hi ∧ lo ≤ z ∧ z ≤ hi := by
  refine ⟨uniform lo hi (s k), uniform lo hi (s (k+1)), uniform lo hi (s (k+2)), ?_,
    (uniform_mem hlh h00 h01).1, (uniform_mem hlh h00 h01).2,
    (uniform_mem hlh h10 h11).1, (uniform_mem hlh h10 h11).2,
    (uniform_mem hlh h20 h21).1, (uniform_mem hlh h20 h21).2⟩
  rw [updateShader_eq_entriesGo host node s (by simp) k]
  simp only [entriesGo, processEntry, ht, if_pos, vec3Set, pyIndex, handleValue, rangeDraw,
    List.get?, eq_self_iff_true, if_true]
  simp

/-- C1 (witness). -/
theorem vector3_componentwise_range_within_bounds_w :
    ∃ x y z : ℚ,
      updateShader hostF3 "sh"
        [("color", .tup [.tup [.num 0, .num 1], .tup [.num 0, .num 1], .tup [.num 0, .num 1]])]
        sHalf 0
      = ([.setVector ("sh" ++ "." ++ "color") (.num x) (.num y) (.num z)], none, 0 + 3)
      ∧ (0:ℚ) ≤ x ∧ x ≤ 1 ∧ (0:ℚ) ≤ y ∧ y ≤ 1 ∧ (0:ℚ) ≤ z ∧ z ≤ 1 :=
  vector3_componentwise_range_within_bounds hostF3 "sh" "color" 0 1 sHalf 0 rfl
    (by norm_num) (by norm_num [sHalf]) (by norm_num [sHalf]) (by norm_num [sHalf])
    (by norm_num [sHalf]) (by norm_num [sHalf]) (by norm_num [sHalf])

/-- C3 (counterexample): a scalar spec for a vector3-typed attribute is a
shape the spec admits, yet the assigner itself raises TypeError (the
scalar is not subscriptable), before any host setter runs. -/
theorem scalar_spec_for_vector3_attr_raises_typeError :
    updateShader hostF3 "sh" [("specularColor", .num 5)] sHalf 0
      = ([], some PyErr.typeError, 0) := rfl

/-- C3 (amended): no exception escapes the resolver/assigner provided each
attribute has a spec matching the shape its declared type expects: a number or (low, high)
pair for scalar attributes, and a three-component tuple or list of such for
vector3 attributes; handleValue itself never raises on admitted scalar
shapes. -/
theorem wellShaped_specs_no_exception
    (host : Host) (node : String) (d : List (String × PyVal)) (s : RSource) (k : Nat)
    (hn : (d.map Prod.fst).Nodup)
    (hs : ∀ p ∈ d, entrySafe host node p = true) :
    (updateShader host node d s k).2.1 = none
    ∧ ∀ v, scalarSpecOk v = true → ∃ w k1, handleValue s k v = (Except.ok w, k1) := by
  constructor
  · rw [updateShader_eq_entriesGo host node s hn k]
    exact (entriesGo_safe_shape host node s d k hs).1
  · exact fun v hv => handleValue_ok s k v hv

/-- C3 (witness). -/
theorem wellShaped_specs_no_exception_w :
    (updateShader hostF3 "sh" [("base", .tup [.num 1, .num 2, .num 3])] sHalf 0).2.1 = none
    ∧ ∀ v, scalarSpecOk v = true → ∃ w k1, handleValue sHalf 0 v = (Except.ok w, k1) :=
  wellShaped_specs_no_exception hostF3 "sh" [("base", .tup [.num 1, .num 2, .num 3])] sHalf 0
    (by simp) (by decide)

/-- C4 (counterexample): a one-element tuple is not an ordered pair, yet
resolveValue does not pass it through unchanged: it raises IndexError. -/
theorem singleton_tuple_raises_indexError :
    handleValue sHalf 0 (.tup [.num 5]) = (Except.error PyErr.indexError, 0) := rfl

/-- C4 (amended): resolveValue passes a value through unchanged exactly
when it is not a tuple or list; tuple/list inputs of any length are
treated as ranges over their first two elements (raising IndexError when
fewer than two exist). -/
theorem non_container_passthrough (s : RSource) (k : Nat) (v : PyVal)
    (h : isRangeContainer v = false) :
    handleValue s k v = (Except.ok v, k) :=
  handleValue_passthrough s k v h

/-- C4 (witness). -/
theorem non_container_passthrough_w :
    handleValue sHalf 0 (.str "x") = (Except.ok (.str "x"), 0) :=
  non_container_passthrough sHalf 0 (.str "x") rfl

/-- C5: resolveValue on a range pair (lo, hi) with lo ≤ hi returns the
uniform draw lo + (hi - lo) * r for the next draw r of the shared source,
consuming exactly one draw; when r lies in [0, 1] the result lies in the
closed interval [lo, hi]. -/
theorem range_pair_within_bounds (s : RSource) (k : Nat) (lo hi : ℚ)
    (hlh : lo ≤ hi) (hr0 : 0 ≤ s k) (hr1 : s k ≤ 1) :
    ∃ v : ℚ, handleValue s k (.tup [.num lo, .num hi]) = (Except.ok (.num v), k + 1)
      ∧ lo ≤ v ∧ v ≤ hi :=
  ⟨uniform lo hi (s k), rfl, (uniform_mem hlh hr0 hr1).1, (uniform_mem hlh hr0 hr1).2⟩

/-- C5 (witness). -/
theorem range_pair_within_bounds_w :
    ∃ v : ℚ, handleValue sHalf 0 (.tup [.num 2, .num 5]) = (Except.ok (.num v), 0 + 1)
      ∧ 2 ≤ v ∧ v ≤ 5 :=
  range_pair_within_bounds sHalf 0 2 5 (by norm_num) (by norm_num [sHalf]) (by norm_num [sHalf])

/-- C7: a vector3 attribute whose spec is the triple (1.0, 1.0, 1.0) of
identical scalars is written exactly as (1.0, 1.0, 1.0) through the
vector setter, with no exception and no random draw consumed. -/
theorem vector3_three_scalars_written_exactly :
    updateShader hostF3 "shader1" [("baseColor", .tup [.num 1, .num 1, .num 1])] sHalf 0
      = ([.setVector "shader1.baseColor" (.num 1) (.num 1) (.num 1)], none, 0) := rfl

/-- C2: an attribute whose host-reported type t is neither float nor
float3 produces no write: exactly one warning naming the attribute and its
type is emitted in its place, no random draw is consumed, no exception is
raised for it, and the attributes before and after it in the batch are
processed exactly as they would otherwise be. -/
theorem unsupported_type_warns_and_continues
    (host : Host) (node : String) (d1 d2 : List (String × PyVal))
    (a t : String) (spec : PyVal) (s : RSource) (k : Nat)
    (hn : ((d1 ++ (a, spec) :: d2).map Prod.fst).Nodup)
    (ht : host.getAttrType (node ++ "." ++ a) = t)
    (h3 : t ≠ "float3") (h1 : t ≠ "float")
    (hpre : (updateShader host node d1 s k).2.1 = none) :
    updateShader host node (d1 ++ (a, spec) :: d2) s k
      = ((updateShader host node d1 s k).1
          ++ HostEvent.warn ("attr " ++ a ++ " is of unimplemented type " ++ t ++ ", skipping")
            :: (updateShader host node d2 s (updateShader host node d1 s k).2.2).1,
         (updateShader host node d2 s (updateShader host node d1 s k).2.2).2.1,
         (updateShader host node d2 s (updateShader host node d1 s k).2.2).2.2) := by
  have hn2 : (((a, spec) :: d2).map Prod.fst).Nodup := by
    have hmap : ((d1 ++ (a, spec) :: d2).map Prod.fst)
        = d1.map Prod.fst ++ ((a, spec) :: d2).map Prod.fst :=
      List.map_append Prod.fst d1 ((a, spec) :: d2)
    exact (hmap ▸ hn).of_append_right
  rw [updateShader_split host node d1 ((a, spec) :: d2) s k hn hpre]
  rw [updateShader_cons host node a spec d2 s _ hn2]
  rw [processEntry_unsupported host node a spec s _
    (by rw [ht]; exact h3) (by rw [ht]; exact h1)]
  simp [ht]

/-- C2 (witness): one unsupported-type attribute between two float
attributes warns once and leaves both neighbours processed. -/
theorem unsupported_type_warns_and_continues_w :
    updateShader hostMix "n" ([("a", PyVal.num 5)] ++ ("b", PyVal.num 7) :: [("c", PyVal.num 9)])
      sHalf 0
      = ((updateShader hostMix "n" [("a", PyVal.num 5)] sHalf 0).1
          ++ HostEvent.warn ("attr " ++ "b" ++ " is of unimplemented type " ++ "typeFoo"
              ++ ", skipping")
            :: (updateShader hostMix "n" [("c", PyVal.num 9)] sHalf
                  (updateShader hostMix "n" [("a", PyVal.num 5)] sHalf 0).2.2).1,
         (updateShader hostMix "n" [("c", PyVal.num 9)] sHalf
            (updateShader hostMix "n" [("a", PyVal.num 5)] sHalf 0).2.2).2.1,
         (updateShader hostMix "n" [("c", PyVal.num 9)] sHalf
            (updateShader hostMix "n" [("a", PyVal.num 5)] sHalf 0).2.2).2.2) :=
  unsupported_type_warns_and_continues hostMix "n" [("a", PyVal.num 5)] [("c", PyVal.num 9)]
    "b" "typeFoo" (PyVal.num 7) sHalf 0 (by simp) rfl (by decide) (by decide) rfl

/-- C6: a float-typed attribute in the batch is written with exactly the
single value resolveValue returns for its spec, through the scalar
setter, with the attributes before and after it processed as usual. -/
theorem float_attr_writes_resolved_value
    (host : Host) (node : String) (d1 d2 : List (String × PyVal))
    (a : String) (spec : PyVal) (s : RSource) (k : Nat) (v : PyVal) (k1 : Nat)
    (hn : ((d1 ++ (a, spec) :: d2).map Prod.fst).Nodup)
    (ht : host.getAttrType (node ++ "." ++ a) = "float")
    (hpre : (updateShader host node d1 s k).2.1 = none)
    (hv : handleValue s (updateShader host node d1 s k).2.2 spec = (Except.ok v, k1)) :
    updateShader host node (d1 ++ (a, spec) :: d2) s k
      = ((updateShader host node d1 s k).1
          ++ HostEvent.setScalar (node ++ "." ++ a) v :: (updateShader host node d2 s k1).1,
         (updateShader host node d2 s k1).2.1,
         (updateShader host node d2 s k1).2.2) := by
  have hn2 : (((a, spec) :: d2).map Prod.fst).Nodup := by
    have hmap : ((d1 ++ (a, spec) :: d2).map Prod.fst)
        = d1.map Prod.fst ++ ((a, spec) :: d2).map Prod.fst :=
      List.map_append Prod.fst d1 ((a, spec) :: d2)
    exact (hmap ▸ hn).of_append_right
  rw [updateShader_split host node d1 ((a, spec) :: d2) s k hn hpre]
  rw [updateShader_cons host node a spec d2 s _ hn2]
  rw [processEntry_float host node a spec s _ v k1 ht hv]
  simp

/-- C6 (witness): a float attribute with a range spec is written with the
one value resolveValue produced for it. -/
theorem float_attr_writes_resolved_value_w :
    updateShader hostF "n" ([] ++ ("a", PyVal.tup [PyVal.num 0, PyVal.num 2]) :: []) sHalf 0
      = ((updateShader hostF "n" [] sHalf 0).1
          ++ HostEvent.setScalar ("n" ++ "." ++ "a") (PyVal.num (uniform 0 2 (sHalf 0)))
            :: (updateShader hostF "n" [] sHalf 1).1,
         (updateShader hostF "n" [] sHalf 1).2.1,
         (updateShader hostF "n" [] sHalf 1).2.2) :=
  float_attr_writes_resolved_value hostF "n" [] [] "a" (PyVal.tup [PyVal.num 0, PyVal.num 2])
    sHalf 0 (PyVal.num (uniform 0 2 (sHalf 0))) 1 (by simp) rfl rfl rfl

/-- C8 (counterexample): order of enumeration does change the set of host
writes once a range spec is involved: over the same two-entry mapping, the
write for attribute a carries the value 0 in one enumeration order and not
in the other, because the two orders consume the shared random draws in a
different order. -/
theorem order_changes_drawn_values :
    ([(("a" : String), PyVal.tup [PyVal.num 0, PyVal.num 1]),
      ("b", PyVal.tup [PyVal.num 2, PyVal.num 3])].Perm
      [("b", PyVal.tup [PyVal.num 2, PyVal.num 3]),
       ("a", PyVal.tup [PyVal.num 0, PyVal.num 1])])
    ∧ HostEvent.setScalar "n.a" (PyVal.num 0)
        ∈ (updateShader hostF "n"
            [("a", PyVal.tup [PyVal.num 0, PyVal.num 1]),
             ("b", PyVal.tup [PyVal.num 2, PyVal.num 3])] sStep 0).1
    ∧ HostEvent.setScalar "n.a" (PyVal.num 0)
        ∉ (updateShader hostF "n"
            [("b", PyVal.tup [PyVal.num 2, PyVal.num 3]),
             ("a", PyVal.tup [PyVal.num 0, PyVal.num 1])] sStep 0).1 := by
  refine ⟨List.Perm.swap _ _ _, ?_, ?_⟩
  · have h : (updateShader hostF "n"
        [("a", PyVal.tup [PyVal.num 0, PyVal.num 1]),
         ("b", PyVal.tup [PyVal.num 2, PyVal.num 3])] sStep 0).1
        = [HostEvent.setScalar ("n" ++ "." ++ "a") (PyVal.num (uniform 0 1 (sStep 0))),
           HostEvent.setScalar ("n" ++ "." ++ "b") (PyVal.num (uniform 2 3 (sStep 1)))] := rfl
    rw [h]
    have hu : uniform 0 1 (sStep 0) = 0 := by norm_num [uniform, sStep]
    rw [hu]
    exact List.mem_cons_self _ _
  · have h : (updateShader hostF "n"
        [("b", PyVal.tup [PyVal.num 2, PyVal.num 3]),
         ("a", PyVal.tup [PyVal.num 0, PyVal.num 1])] sStep 0).1
        = [HostEvent.setScalar ("n" ++ "." ++ "b") (PyVal.num (uniform 2 3 (sStep 0))),
           HostEvent.setScalar ("n" ++ "." ++ "a") (PyVal.num (uniform 0 1 (sStep 1)))] := rfl
    rw [h]
    have hb : uniform 2 3 (sStep 0) = 2 := by norm_num [uniform, sStep]
    have ha : uniform 0 1 (sStep 1) = 1 := by norm_num [uniform, sStep]
    rw [hb, ha]
    intro hmem
    rcases List.mem_cons.mp hmem with hc | hc
    · injection hc with h1 h2
      exact absurd h1 (by decide)
    · have hc2 := List.mem_singleton.mp hc
      injection hc2 with h1 h2
      injection h2 with h3
      exact absurd h3 (by norm_num)

/-- C8 (amended): over the same unique-key mapping of well-shaped entries,
any two enumeration orders produce the same multiset of per-attribute
writes and warnings up to the randomly drawn values (the value-erased
event multisets are permutations), and when no spec consumes randomness
the full write multisets, values included, coincide; individual drawn
values do depend on the enumeration order. -/
theorem order_independent_event_shapes
    (host : Host) (node : String) (d1 d2 : List (String × PyVal)) (s : RSource) (k : Nat)
    (hp : d1.Perm d2)
    (hn : (d1.map Prod.fst).Nodup)
    (hs : ∀ p ∈ d1, entrySafe host node p = true) :
    ((updateShader host node d1 s k).1.map eventShape).Perm
      ((updateShader host node d2 s k).1.map eventShape)
    ∧ ((∀ p ∈ d1, entryDet host node p = true) →
        (updateShader host node d1 s k).1.Perm (updateShader host node d2 s k).1) := by
  have hn2 : (d2.map Prod.fst).Nodup := ((hp.map Prod.fst).nodup_iff).mp hn
  have hs2 : ∀ p ∈ d2, entrySafe host node p = true := fun p hp2 => hs p (hp.mem_iff.mpr hp2)
  rw [updateShader_eq_entriesGo host node s hn k, updateShader_eq_entriesGo host node s hn2 k]
  obtain ⟨-, m1⟩ := entriesGo_safe_shape host node s d1 k hs
  obtain ⟨-, m2⟩ := entriesGo_safe_shape host node s d2 k hs2
  constructor
  · rw [m1, m2]
    exact hp.map _
  · intro hdet
    obtain ⟨t1, -⟩ := entriesGo_det_trace host node s d1 k hs hdet
    obtain ⟨t2, -⟩ := entriesGo_det_trace host node s d2 k hs2
      (fun p hp2 => hdet p (hp.mem_iff.mpr hp2))
    rw [t1, t2]
    exact hp.map _

/-- C8 (witness). -/
theorem order_independent_event_shapes_w :
    ((updateShader hostF "n" [("a", PyVal.num 1), ("b", PyVal.num 2)] sHalf 0).1.map
        eventShape).Perm
      ((updateShader hostF "n" [("b", PyVal.num 2), ("a", PyVal.num 1)] sHalf 0).1.map
        eventShape)
    ∧ ((∀ p ∈ [(("a" : String), PyVal.num 1), ("b", PyVal.num 2)],
          entryDet hostF "n" p = true) →
        (updateShader hostF "n" [("a", PyVal.num 1), ("b", PyVal.num 2)] sHalf 0).1.Perm
          (updateShader hostF "n" [("b", PyVal.num 2), ("a", PyVal.num 1)] sHalf 0).1) :=
  order_independent_event_shapes hostF "n"
    [("a", PyVal.num 1), ("b", PyVal.num 2)] [("b", PyVal.num 2), ("a", PyVal.num 1)]
    sHalf 0 (List.Perm.swap _ _ _) (by simp) (by decide)

/-- C9: when the shader name already exists, createOrUpdateShader takes
the update branch, never binds the local shaderNode, and cannot return
normally: if the inner update raises, that exception propagates, and
otherwise the return statement raises NameError (UnboundLocalError). -/
theorem createOrUpdateShader_existing_raises_nameError
    (host : Host) (nm ty : String) (vals : List (String × PyVal)) (s : RSource) (k : Nat)
    (hex : host.objExists nm = true) :
    (∀ r, (createOrUpdateShader host nm vals ty s k).2.1 ≠ Except.ok r)
    ∧ ((updateShader host nm vals s k).2.1 = none →
        (createOrUpdateShader host nm vals ty s k).2.1 = Except.error PyErr.nameError) := by
  unfold createOrUpdateShader
  rw [hex]
  rw [if_neg (by decide)]
  constructor
  · intro r h
    dsimp only at h
    cases hres : (updateShader host nm vals s k).2.1 with
    | some e =>
      rw [hres] at h
      exact Except.noConfusion h
    | none =>
      rw [hres] at h
      exact Except.noConfusion h
  · intro h
    dsimp only
    rw [h]

/-- C9 (witness). -/
theorem createOrUpdateShader_existing_raises_nameError_w :
    (∀ r, (createOrUpdateShader hostF "sh" [] "standardSurface" sHalf 0).2.1 ≠ Except.ok r)
    ∧ ((updateShader hostF "sh" [] sHalf 0).2.1 = none →
        (createOrUpdateShader hostF "sh" [] "standardSurface" sHalf 0).2.1
          = Except.error PyErr.nameError) :=
  createOrUpdateShader_existing_raises_nameError hostF "sh" "standardSurface" [] sHalf 0 rfl

/-- C10: updateShader only ever writes attributes named by the keys of
the assignment mapping on the target node (or warns); it creates no nodes
or connections, and on an empty mapping it emits no events at all, no
warning, no exception, and consumes no randomness. -/
theorem updateShader_writes_only_mapping_keys
    (host : Host) (node : String) (d : List (String × PyVal)) (s : RSource) (k : Nat) :
    updateShader host node [] s k = ([], none, k)
    ∧ ∀ ev ∈ (updateShader host node d s k).1, touchesOnlyKeys node (d.map Prod.fst) ev :=
  ⟨rfl, fun ev hev => updateShaderGo_touches host node d s (d.map Prod.fst) k ev hev⟩

/-- C10 (witness). -/
theorem updateShader_writes_only_mapping_keys_w :
    updateShader hostF "n" [] sHalf 0 = ([], none, 0)
    ∧ touchesOnlyKeys "n" (([(("a" : String), PyVal.num 2)]).map Prod.fst)
        (HostEvent.setScalar ("n" ++ "." ++ "a") (PyVal.num 2)) :=
  ⟨(updateShader_writes_only_mapping_keys hostF "n" [] sHalf 0).1,
   (updateShader_writes_only_mapping_keys hostF "n" [("a", PyVal.num 2)] sHalf 0).2
     (HostEvent.setScalar ("n" ++ "." ++ "a") (PyVal.num 2))
     (List.mem_singleton.mpr rfl)⟩
